import Mathlib

/-!
Shallow embedding of `pyrsa/util/inference_util.py`.

Numbers are modelled as exact rationals.  A floating-point value that can be
NaN is modelled as `Option ℚ`, with `none` playing the role of NaN: numpy
arithmetic propagates NaN through `+`, `-`, `*`, `/`, `min`, and comparisons
with NaN are false.  Division by zero (which numpy turns into NaN for the
`0/0` cases that occur here) is likewise mapped to `none` at the single place
it can arise (`pair_tests`).  External numeric routines that are not part of
this repository (`scipy.stats.t.cdf`, `numpy.sqrt` on irrational arguments)
are abstracted as function parameters where a claim does not depend on their
values; `numpy.sqrt` inside `pool_rdm` is modelled by `Rat.sqrt`, which agrees
with the mathematical square root on perfect squares (the only points at which
any theorem below inspects its value).
-/

/-- A float value that may be NaN: `none` is NaN. -/
abbrev NVal := Option ℚ

/-- NaN-propagating addition: any NaN operand makes the result NaN. -/
def optAdd : NVal → NVal → NVal
  | some a, some b => some (a + b)
  | _, _ => none

/-- NaN-propagating sum of a list of float values, as used by `np.mean`
over an axis: a single NaN makes the result NaN. -/
def optSum (l : List NVal) : NVal := l.foldr optAdd (some 0)

/-- The column `j` of a stack of rdm vectors (`rdm_vector[:, j]`). -/
def colVals (rows : List (List NVal)) (j : Nat) : List NVal :=
  rows.map (fun r => r.getD j none)

/-- Embedding of `_nan_mean` (inference_util.py lines 131-146):
`nan_idx = ~np.isnan(rdm_vector[0])` selects the columns at which the FIRST
row is not NaN; `mean_values = np.mean(rdm_vector[:, nan_idx], axis=0)` is the
plain (NaN-propagating) mean over all rows of those columns, and the output is
NaN at all other columns. -/
def nan_mean (rows : List (List NVal)) : List NVal :=
  match rows with
  | [] => []
  | r0 :: rest =>
    (List.range r0.length).map (fun j =>
      match r0.getD j none with
      | none => none
      | some _ =>
          (optSum (colVals (r0 :: rest) j)).map
            (fun s => s / ((r0 :: rest).length : ℚ)))

/-- The non-NaN entries of a vector (`v[~np.isnan(v)]`). -/
def rowNanVals (v : List NVal) : List ℚ := v.filterMap id

/-- Embedding of `np.nanmean` over one vector: the mean of the non-NaN entries; NaN when
every entry is NaN. -/
def nanmeanRow (v : List NVal) : NVal :=
  let vals := rowNanVals v
  if vals.length = 0 then none else some (vals.sum / (vals.length : ℚ))

/-- Embedding of `np.nanstd` over one vector: the population standard deviation of the
non-NaN entries (square root via `Rat.sqrt`, see the file comment); NaN when
every entry is NaN. -/
def nanstdRow (v : List NVal) : NVal :=
  let vals := rowNanVals v
  if vals.length = 0 then none
  else
    let m := vals.sum / (vals.length : ℚ)
    some (Rat.sqrt ((vals.map (fun x => (x - m) ^ 2)).sum / (vals.length : ℚ)))

/-- One row of `rdm_vec / np.sqrt(np.nanmean(rdm_vec ** 2, axis=1, keepdims=True))`
in the `cosine` / `cosine_cov` branches of `pool_rdm`: the row is divided by the
root of the mean of the squares of its non-NaN entries. -/
def scaleRowCos (r : List NVal) : List NVal :=
  match (nanmeanRow (r.map (fun e => e.map (fun x => x ^ 2)))).map Rat.sqrt with
  | none => r.map (fun _ => none)
  | some s => r.map (fun e => e.map (fun x => x / s))

/-- One row of the two per-row normalization steps of the `corr` / `corr_cov`
branches of `pool_rdm`: subtract the row nanmean, divide by the row nanstd. -/
def normRowCorr (r : List NVal) : List NVal :=
  match nanmeanRow r, nanstdRow r with
  | some m, some s => r.map (fun e => e.map (fun x => (x - m) / s))
  | _, _ => r.map (fun _ => none)

/-- Embedding of `np.nanmin` over a vector: minimum of the non-NaN entries, NaN when all
entries are NaN. -/
def nanminVec (v : List NVal) : NVal :=
  match rowNanVals v with
  | [] => none
  | x :: xs => some (xs.foldl min x)

/-- Subtraction `rdm_vec - c` for a (possibly NaN) scalar `c`, as used by the
`corr` / `corr_cov` branches after `np.nanmin`. -/
def subConst (v : List NVal) (c : NVal) : List NVal :=
  match c with
  | none => v.map (fun _ => none)
  | some m => v.map (fun e => e.map (fun x => x - m))

/-- Modelled from the spec: `scipy.stats.rankdata` (imported, not under src)
assigns fractional ("average") ranks: the rank of `x` among `vals` is the
number of entries strictly below `x` plus half of one more than the number of
entries equal to `x`. -/
def rankOf (vals : List ℚ) (x : ℚ) : ℚ :=
  (vals.countP (fun y => decide (y < x)) : ℚ) +
    ((vals.countP (fun y => decide (y = x)) : ℚ) + 1) / 2

/-- Embedding of `_nan_rank_data` (inference_util.py lines 149-163): the
non-NaN entries are rank-transformed, NaN entries stay NaN. -/
def nan_rank_data (v : List NVal) : List NVal :=
  let vals := rowNanVals v
  v.map (fun e => e.map (rankOf vals))

/-- Embedding of `pool_rdm` (inference_util.py lines 71-128) restricted to the
dissimilarity vectors: the input is `rdms.get_vectors()` (one row per rdm) and
the output is the single pooled vector that the returned `RDMs` object wraps.
The branch structure (including the unreachable second `rho-a` branch at line
111, shadowed by line 108) follows the source; an unknown method raises
`ValueError`. -/
def pool_rdm (rdm_vec : List (List NVal)) (method : String) : Except String (List NVal) :=
  if method = "euclid" then
    .ok (nan_mean rdm_vec)
  else if method = "cosine" then
    .ok (nan_mean (rdm_vec.map scaleRowCos))
  else if method = "corr" then
    let v := nan_mean (rdm_vec.map normRowCorr)
    .ok (subConst v (nanminVec v))
  else if method = "cosine_cov" then
    .ok (nan_mean (rdm_vec.map scaleRowCos))
  else if method = "corr_cov" then
    let v := nan_mean (rdm_vec.map normRowCorr)
    .ok (subConst v (nanminVec v))
  else if method = "spearman" ∨ method = "rho-a" then
    .ok (nan_mean (rdm_vec.map nan_rank_data))
  else if method = "kendall" ∨ method = "tau-b" then
    .ok (nan_mean (rdm_vec.map nan_rank_data))
  else if method = "tau-a" then
    .ok (nan_mean (rdm_vec.map nan_rank_data))
  else
    .error "Unknown RDM comparison method requested!"

/-- Entry of the evaluations matrix: sample `s`, model `i`
(`evaluations[s, i]`; the matrix is rectangular in numpy, out-of-range
defaults never arise at the shapes the source accepts). -/
def evalAt (s : List ℚ) (i : Nat) : ℚ := s.getD i 0

/-- Count `np.sum(evaluations[:, i] == evaluations[:, j])`: the number of samples at
which models `i` and `j` score exactly equal. -/
def pairEqCount (evals : List (List ℚ)) (i j : Nat) : Nat :=
  evals.countP (fun s => decide (evalAt s i = evalAt s j))

/-- The denominator of the bootstrap proportion (inference_util.py lines
188-189): `evaluations.shape[0] - np.sum(evaluations[:, i] == evaluations[:, j])`,
the number of non-tied samples for the pair. -/
def pairDenom (evals : List (List ℚ)) (i j : Nat) : Nat :=
  evals.length - pairEqCount evals i j

/-- Count `np.sum(evaluations[:, i] < evaluations[:, j])`: the number of samples at
which model `i` scores strictly below model `j`. -/
def pairLtCount (evals : List (List ℚ)) (i j : Nat) : Nat :=
  evals.countP (fun s => decide (evalAt s i < evalAt s j))

/-- The raw bootstrap proportion for a pair (inference_util.py lines 186-189):
count of strictly-smaller samples over count of non-tied samples.  A fully
tied pair gives `0/0`, which numpy turns into NaN, here `none`. -/
def pairProp (evals : List (List ℚ)) (i j : Nat) : NVal :=
  if pairDenom evals i j = 0 then none
  else some ((pairLtCount evals i j : ℚ) / (pairDenom evals i j : ℚ))

/-- The fold `np.minimum(proportions, 1 - proportions) * 2` applied to one entry
(inference_util.py line 191): the two-sided p-value before correction. -/
def twoSidedOf (p : ℚ) : ℚ := min p (1 - p) * 2

/-- The continuity correction (inference_util.py lines 192-193):
`(n - 1) / n * p + 1 / n` with `n = len(evaluations)`. -/
def bootAdjust (n : Nat) (p : ℚ) : ℚ := ((n : ℚ) - 1) / (n : ℚ) * p + 1 / (n : ℚ)

/-- Embedding of `pair_tests` (inference_util.py lines 166-195) on an already
2-D evaluations matrix (the source first collapses any trailing axes by
repeated averaging; the claims below are about the samples-by-models stage).
The double loop fills each unordered pair symmetrically, entries untouched by
the loop (the diagonal) start at 0, then the two-sided fold, the continuity
correction and `np.fill_diagonal(proportions, 1)` are applied in order. -/
def pair_tests (evals : List (List ℚ)) : List (List NVal) :=
  let m := (evals.headD []).length
  let n := evals.length
  (List.range m).map (fun i => (List.range m).map (fun j =>
    if i = j then some 1
    else ((pairProp evals (min i j) (max i j)).map twoSidedOf).map (bootAdjust n)))

/-- Entry `(i, j)` of a p-value matrix with possibly-NaN entries. -/
def matGet (M : List (List NVal)) (i j : Nat) : NVal := (M.getD i []).getD j none

/-- The variance argument of the parametric tests: either a vector of
per-model variances or a covariance matrix (`if len(variances.shape) == 1:
variances = np.diag(variances)`). -/
inductive VarEst where
  | vec (v : List ℚ)
  | mat (M : List (List ℚ))
deriving DecidableEq

/-- Entry `np.diag(variances)[i]` after the vector-to-diagonal promotion: the
per-model variance of model `i`. -/
def varDiag : VarEst → Nat → ℚ
  | .vec v, i => v.getD i 0
  | .mat M, i => (M.getD i []).getD i 0

/-- Entry `(i, j)` of the covariance matrix after the vector-to-diagonal
promotion. -/
def covAt : VarEst → Nat → Nat → ℚ
  | .vec v, i, j => if i = j then v.getD i 0 else 0
  | .mat M, i, j => (M.getD i []).getD j 0

/-- Reduction `np.mean(evaluations, 0)` on a 2-D samples-by-models matrix: the vector of
per-model mean evaluations (for a 2-D input the subsequent
`while evaluations.ndim > 1` loop of the source does nothing). -/
def meanEvals (evals : List (List ℚ)) : List ℚ :=
  (List.range (evals.headD []).length).map
    (fun i => (evals.map (fun s => evalAt s i)).sum / (evals.length : ℚ))

/-- Element `i` of the value list of a parametric-test result. -/
def exGetD (r : Except String (List ℚ)) (i : Nat) : ℚ := (r.toOption.getD []).getD i 0

/-- Entry `(i, j)` of the matrix result of the pairwise t-test. -/
def exGet2 (r : Except String (List (List ℚ))) (i j : Nat) : ℚ :=
  ((r.toOption.getD []).getD i []).getD j 0

/-- Modelled from the spec: `batch_to_matrices` (imported from
pyrsa.util.rdm_utils, not under src) reshapes the vector of per-pair values
back into a symmetric square matrix; the diagonal, which corresponds to no
pair, is zero. -/
def pairsToMatrix (n : Nat) (f : Nat → Nat → ℚ) : List (List ℚ) :=
  (List.range n).map (fun i => (List.range n).map (fun j =>
    if i = j then 0 else f (min i j) (max i j)))

/-- The per-pair t statistic of `t_tests` (inference_util.py lines 228-231):
the contrast difference of the two mean evaluations over the square root of
`diag(C @ variances @ C.T)` for that pair.  `pairwise_contrast` is modelled
from the spec: one row per unordered pair `(i, j)` with `i < j`, `+1` at `i`
and `-1` at `j`, so the pair variance is
`cov(i,i) - cov(i,j) - cov(j,i) + cov(j,j)`. -/
def tPairStat (sqrtf : ℚ → ℚ) (ev : List ℚ) (V : VarEst) (i j : Nat) : ℚ :=
  (ev.getD i 0 - ev.getD j 0) /
    sqrtf (covAt V i i - covAt V i j - covAt V j i + covAt V j j)

/-- Embedding of `t_tests` (inference_util.py lines 198-234).  `cdf` stands
for `scipy.stats.t.cdf(., dof)` at the supplied degrees of freedom and
`sqrtf` for `np.sqrt`; both are external routines abstracted as parameters.
`variances is None` raises the missing-variance `ValueError`. -/
def t_tests (cdf sqrtf : ℚ → ℚ) (evals : List (List ℚ)) (variances : Option VarEst) :
    Except String (List (List ℚ)) :=
  match variances with
  | none => .error "No variance estimates provided for t_test!"
  | some V =>
    let n_model := (evals.headD []).length
    let ev := meanEvals evals
    let tM := pairsToMatrix n_model (tPairStat sqrtf ev V)
    .ok (tM.map (fun row => row.map (fun t => 2 * (1 - cdf |t|))))

/-- Embedding of `t_test_0` (inference_util.py lines 237-265): one-sided
t-test of each model mean against 0, `p = 1 - cdf(t)` with no absolute
value. -/
def t_test_0 (cdf sqrtf : ℚ → ℚ) (evals : List (List ℚ)) (variances : Option VarEst) :
    Except String (List ℚ) :=
  match variances with
  | none => .error "No variance estimates provided for t_test!"
  | some V =>
    let ev := meanEvals evals
    .ok ((List.range ev.length).map (fun i =>
      1 - cdf (ev.getD i 0 / sqrtf (varDiag V i))))

/-- The noise-ceiling variance argument of `t_test_nc` before conversion:
a scalar, a vector, or a matrix (`np.array` plus `while noise_ceil_var.ndim >
1: noise_ceil_var = noise_ceil_var[:, 0]`). -/
inductive NCVar where
  | scalar (c : ℚ)
  | arr (v : List ℚ)
  | mat (M : List (List ℚ))
deriving DecidableEq

/-- The `np.array` conversion plus the `while ndim > 1` column extraction of
`t_test_nc`: a matrix collapses to its first column, a scalar becomes a
one-element array. -/
def ncvReduce : NCVar → List ℚ
  | .scalar c => [c]
  | .arr v => v
  | .mat M => M.map (fun row => row.getD 0 0)

/-- The three-way variance dispatch of `t_test_nc` (inference_util.py lines
316-322): no ceiling variance keeps the model variance; a multi-element array
gives `var[i] - 2 * noise_ceil_var[i] + noise_ceil_var[-1]`; otherwise the
(scalar-like) value is added to the model variance. -/
def ncEffVar (V : VarEst) (ncv : Option NCVar) (i : Nat) : ℚ :=
  match ncv.map ncvReduce with
  | none => varDiag V i
  | some l =>
      if 1 < l.length then varDiag V i - 2 * l.getD i 0 + l.getLastD 0
      else varDiag V i + l.headD 0

/-- Embedding of `t_test_nc` (inference_util.py lines 268-325): two-sided
t-test of each model mean against the noise ceiling, with the three-way
effective-variance dispatch `ncEffVar`. -/
def t_test_nc (cdf sqrtf : ℚ → ℚ) (evals : List (List ℚ)) (variances : Option VarEst)
    (noise_ceil : ℚ) (noise_ceil_var : Option NCVar) : Except String (List ℚ) :=
  match variances with
  | none => .error "No variance estimates provided for t_test!"
  | some V =>
    let ev := meanEvals evals
    .ok ((List.range ev.length).map (fun i =>
      2 * (1 - cdf |(ev.getD i 0 - noise_ceil) / sqrtf (ncEffVar V noise_ceil_var i)|)))

/-- A model as seen by `input_check_model`: the only part of a
`pyrsa.model.Model` the validator reads is its default fitter. -/
structure MModel (φ : Type) where
  default_fitter : φ
deriving DecidableEq

/-- The `model` argument: a single `Model`, a list of models, or anything
else (the `ValueError` branch). -/
inductive ModelArg (φ : Type) where
  | single (m : MModel φ)
  | listOf (ms : List (MModel φ))
  | invalid
deriving DecidableEq

/-- The supplied `theta` argument when not `None`: a list of parameters or a
non-iterable value (the failing `assert isinstance(theta, Iterable)` case). -/
inductive ThetaVal (α : Type) where
  | tlist (l : List α)
  | tsingle (a : α)
deriving DecidableEq

/-- The supplied `fitter` argument when not `None`: a list (possibly holding
`None` entries, replaced by defaults) or a single function broadcast to all
models. -/
inductive FitVal (φ : Type) where
  | flist (l : List (Option φ))
  | fsingle (f : φ)
deriving DecidableEq

/-- The evaluation buffer allocated by `input_check_model`: `np.zeros(N)` for
a single model, `np.zeros((N, len(model)))` for a model list with `N > 1`,
`np.zeros(len(model))` otherwise. -/
inductive EvalBuf where
  | one (N : Nat)
  | matrix (N m : Nat)
  | vecBuf (m : Nat)
deriving DecidableEq

/-- The returned theta: passed through untouched for a single model, a
normalized per-model list for a model list. -/
inductive ThetaOut (α : Type) where
  | passthruT (t : Option (ThetaVal α))
  | listT (l : List (Option α))
deriving DecidableEq

/-- The returned fitter: passed through untouched for a single model, a
normalized per-model list (defaults filled in) for a model list. -/
inductive FitOut (φ : Type) where
  | passthruF (f : Option (FitVal φ))
  | listF (l : List φ)
deriving DecidableEq

/-- Embedding of `input_check_model` (inference_util.py lines 17-68).  In the
single-model branch the source performs no validation at all and returns
`theta` and `fitter` unprocessed; in the list branch the two `assert`
statements and the final `ValueError` are the only failure points. -/
def input_check_model {α φ : Type} (model : ModelArg φ) (theta : Option (ThetaVal α))
    (fitter : Option (FitVal φ)) (N : Nat) :
    Except String (EvalBuf × ThetaOut α × FitOut φ) :=
  match model with
  | .single _ => .ok (.one N, .passthruT theta, .passthruF fitter)
  | .listOf ms =>
    let ev : EvalBuf := if N > 1 then .matrix N ms.length else .vecBuf ms.length
    match theta with
    | some (.tsingle _) =>
        .error "If a list of models is passed theta must be a list of parameters"
    | some (.tlist l) =>
        if l.length = ms.length then
          match fitter with
          | none => .ok (ev, .listT (l.map some), .listF (ms.map (fun m => m.default_fitter)))
          | some (.flist fl) =>
              if fl.length = ms.length then
                .ok (ev, .listT (l.map some),
                  .listF (List.zipWith (fun f m => f.getD m.default_fitter) fl ms))
              else .error "if fitters are passed there should be as many as models"
          | some (.fsingle f) =>
              .ok (ev, .listT (l.map some), .listF (ms.map (fun _ => f)))
        else .error "there should equally many models as parameters"
    | none =>
        match fitter with
        | none =>
            .ok (ev, .listT (List.replicate ms.length none),
              .listF (ms.map (fun m => m.default_fitter)))
        | some (.flist fl) =>
            if fl.length = ms.length then
              .ok (ev, .listT (List.replicate ms.length none),
                .listF (List.zipWith (fun f m => f.getD m.default_fitter) fl ms))
            else .error "if fitters are passed there should be as many as models"
        | some (.fsingle f) =>
            .ok (ev, .listT (List.replicate ms.length none), .listF (ms.map (fun _ => f)))
  | .invalid => .error "model should be a pyrsa.model.Model or a list of such objects"

/-- Embedding of `default_k_pattern` (inference_util.py lines 328-346). -/
def default_k_pattern (n_pattern : Nat) : Nat :=
  if n_pattern < 12 then 2
  else if n_pattern < 24 then 3
  else if n_pattern < 40 then 4
  else 5

/-- Embedding of `default_k_rdm` (inference_util.py lines 349-368). -/
def default_k_rdm (n_rdm : Nat) : Nat :=
  if n_rdm < 6 then 2
  else if n_rdm < 12 then 3
  else if n_rdm < 20 then 4
  else 5

lemma getD_range_map {α : Type} (f : Nat → α) {m i : Nat} (h : i < m) (d : α) :
    ((List.range m).map f).getD i d = f i := by
  rw [List.getD_eq_getElem _ _ (by simpa using h)]
  simp

lemma optSum_eq_none_of_mem {l : List NVal} (h : none ∈ l) : optSum l = none := by
  induction l with
  | nil => cases h
  | cons x xs ih =>
    rcases List.mem_cons.mp h with h1 | h2
    · subst h1; simp [optSum, optAdd]
    · simp only [optSum, List.foldr_cons]
      rw [show xs.foldr optAdd (some 0) = optSum xs from rfl, ih h2]
      cases x <;> simp [optAdd]

/-- C8: `default_k_pattern` is 2/3/4/5 on the bands below 12, 24, 40 and from
40 on, `default_k_rdm` is 2/3/4/5 on the bands below 6, 12, 20 and from 20 on,
and both functions are monotonically non-decreasing with values in [2, 5]. -/
theorem default_k_staircase :
    (∀ n, default_k_pattern n =
      if n < 12 then 2 else if n < 24 then 3 else if n < 40 then 4 else 5)
    ∧ (∀ n, default_k_rdm n =
      if n < 6 then 2 else if n < 12 then 3 else if n < 20 then 4 else 5)
    ∧ (∀ n k, default_k_pattern n ≤ default_k_pattern (n + k))
    ∧ (∀ n k, default_k_rdm n ≤ default_k_rdm (n + k))
    ∧ (∀ n, 2 ≤ default_k_pattern n ∧ default_k_pattern n ≤ 5)
    ∧ (∀ n, 2 ≤ default_k_rdm n ∧ default_k_rdm n ≤ 5) := by
  refine ⟨fun n => rfl, fun n => rfl, ?_, ?_, ?_, ?_⟩
  · intro n k; unfold default_k_pattern; split_ifs <;> omega
  · intro n k; unfold default_k_rdm; split_ifs <;> omega
  · intro n; unfold default_k_pattern; split_ifs <;> omega
  · intro n; unfold default_k_rdm; split_ifs <;> omega

/-- C1 counterexample: on the stack [[NaN, 1], [2, 3]] the claimed per-column
NaN-ignoring mean would give [2, 2] (column 0 averages its single non-NaN
entry 2), but `_nan_mean` masks by the first row only and returns NaN in
column 0. -/
theorem nan_mean_percolumn_cex :
    nan_mean [[none, some 1], [some 2, some 3]] = [none, some 2]
    ∧ nan_mean [[none, some 1], [some 2, some 3]] ≠ [some 2, some 2] := by
  have h1 : nan_mean [[none, some 1], [some 2, some 3]] = [none, some 2] := by
    norm_num [nan_mean, optSum, optAdd, colVals, List.range_succ]
  exact ⟨h1, by rw [h1]; simp⟩

/-- C1 amended: the output of `_nan_mean` is NaN exactly at the columns where
the FIRST row is NaN; at the remaining columns it is the plain NaN-propagating
mean over all rows (so a NaN in a later row at such a column makes the output
NaN there too). -/
theorem nan_mean_first_row_mask (rows : List (List NVal)) (hne : rows ≠ [])
    (j : Nat) (hj : j < (rows.headD []).length) :
    (nan_mean rows).getD j none =
      match (rows.headD []).getD j none with
      | none => none
      | some _ => (optSum (colVals rows j)).map (fun s => s / (rows.length : ℚ)) := by
  match rows with
  | [] => exact absurd rfl hne
  | r0 :: rest =>
    simp only [List.headD_cons] at hj ⊢
    show (nan_mean (r0 :: rest)).getD j none = _
    unfold nan_mean
    rw [getD_range_map _ hj]

/-- C9: `_nan_mean` selects columns solely from the NaN pattern of the first
row: the output is NaN wherever the first row is NaN regardless of the other
rows; where the first row is non-NaN the plain mean over all rows is taken,
and a NaN in any later row at such a column propagates into the output. -/
theorem nan_mean_first_row_rule (r0 : List NVal) (rest : List (List NVal))
    (j : Nat) (hj : j < r0.length) :
    (r0.getD j none = none → (nan_mean (r0 :: rest)).getD j none = none)
    ∧ (∀ a : ℚ, r0.getD j none = some a →
        (nan_mean (r0 :: rest)).getD j none =
          (optSum (colVals (r0 :: rest) j)).map
            (fun s => s / (((r0 :: rest).length : Nat) : ℚ)))
    ∧ (∀ a : ℚ, r0.getD j none = some a → ∀ r ∈ rest, r.getD j none = none →
        (nan_mean (r0 :: rest)).getD j none = none) := by
  have hbase : (nan_mean (r0 :: rest)).getD j none =
      match r0.getD j none with
      | none => none
      | some _ =>
          (optSum (colVals (r0 :: rest) j)).map
            (fun s => s / (((r0 :: rest).length : Nat) : ℚ)) := by
    unfold nan_mean
    rw [getD_range_map _ hj]
  refine ⟨fun h0 => by rw [hbase, h0], fun a ha => by rw [hbase, ha], ?_⟩
  intro a ha r hr hrnone
  rw [hbase, ha]
  have hmem : (none : NVal) ∈ colVals (r0 :: rest) j := by
    unfold colVals
    exact List.mem_map.mpr ⟨r, List.mem_cons_of_mem _ hr, hrnone⟩
  rw [optSum_eq_none_of_mem hmem]
  rfl

/-- Witness for the amended C1 theorem at a concrete stack. -/
theorem nan_mean_first_row_mask_wit :
    (nan_mean [[none, some 1], [some 2, some 3]]).getD 0 none =
      match ([[none, some (1:ℚ)], [some 2, some 3]].headD []).getD 0 none with
      | none => none
      | some _ =>
          (optSum (colVals [[none, some 1], [some 2, some 3]] 0)).map
            (fun s => s / (([[none, some (1:ℚ)], [some 2, some 3]] : List (List NVal)).length : ℚ)) :=
  nan_mean_first_row_mask [[none, some 1], [some 2, some 3]] (by simp) 0 (by simp)

/-- Witness for the C9 theorem at a concrete stack: the first row is NaN at
column 0, so the output is NaN there. -/
theorem nan_mean_first_row_rule_wit :
    (nan_mean [[none, some 1], [some 2, some 3]]).getD 0 none = none :=
  (nan_mean_first_row_rule [none, some 1] [[some 2, some 3]] 0 (by simp)).1 rfl

lemma nan_mean_single (w : List NVal) : nan_mean [w] = w := by
  apply List.ext_getElem
  · simp [nan_mean]
  · intro i h1 h2
    have hi : i < w.length := by simpa [nan_mean] using h2
    show (nan_mean [w])[i] = w[i]
    unfold nan_mean
    rw [List.getElem_map]
    rw [List.getElem_range]
    have hgd : w.getD i none = w[i] := List.getD_eq_getElem w none hi
    rcases hw : w[i] with _ | a
    · rw [hgd, hw]
    · have hsome : w.getD i none = some a := by rw [hgd, hw]
      rw [hsome]
      show (optSum (colVals [w] i)).map
          (fun s => s / (([w] : List (List NVal)).length : ℚ)) = some a
      have hcol : colVals [w] i = [some a] := by
        simp only [colVals, List.map_cons, List.map_nil, hsome]
      rw [hcol]
      show (optSum [some a]).map (fun s => s / (1 : ℚ)) = some a
      simp [optSum, optAdd]

/-- C2 counterexample: a single-row collection with row [0, 2] is pooled under
the `spearman` metric to the rank vector [1, 2], not to the row itself. -/
theorem pool_rdm_single_row_cex :
    (pool_rdm [[some 0, some 2]] "spearman").toOption.getD [] = [some 1, some 2]
    ∧ (pool_rdm [[some 0, some 2]] "spearman").toOption.getD [] ≠ [some 0, some 2] := by
  have h1 : (pool_rdm [[some 0, some 2]] "spearman").toOption.getD [] = [some 1, some 2] := by
    rw [show pool_rdm [[some 0, some 2]] "spearman"
        = .ok (nan_mean ([[some 0, some 2]].map nan_rank_data)) from rfl]
    rw [show ([[some (0:ℚ), some 2]].map nan_rank_data) = [nan_rank_data [some 0, some 2]] from rfl]
    rw [nan_mean_single]
    norm_num [nan_rank_data, rowNanVals, rankOf, List.countP_cons, List.countP_nil,
      List.filterMap_cons, Except.toOption]
  refine ⟨h1, ?_⟩
  rw [h1]
  simp

/-- C2 amended: on a single-row collection `pool_rdm` returns, for every valid
metric name: the row unchanged for `euclid`; the row scaled by the inverse
root-mean-square of its non-NaN entries for `cosine` / `cosine_cov`; the
standardized row shifted so that its minimum non-NaN value is exactly 0 (the
`np.nanmin` subtraction is applied even to a single row) for
`corr` / `corr_cov`; and the row's fractional ranks for
`spearman` / `rho-a` / `kendall` / `tau-b` / `tau-a`.  Only `euclid` is the
identity; the other transforms in general change the row (see the
counterexample). -/
theorem pool_rdm_single_row (v : List NVal) :
    pool_rdm [v] "euclid" = .ok v
    ∧ pool_rdm [v] "cosine" = .ok (scaleRowCos v)
    ∧ pool_rdm [v] "cosine_cov" = .ok (scaleRowCos v)
    ∧ pool_rdm [v] "corr" =
        .ok (subConst (normRowCorr v) (nanminVec (normRowCorr v)))
    ∧ pool_rdm [v] "corr_cov" =
        .ok (subConst (normRowCorr v) (nanminVec (normRowCorr v)))
    ∧ pool_rdm [v] "spearman" = .ok (nan_rank_data v)
    ∧ pool_rdm [v] "rho-a" = .ok (nan_rank_data v)
    ∧ pool_rdm [v] "kendall" = .ok (nan_rank_data v)
    ∧ pool_rdm [v] "tau-b" = .ok (nan_rank_data v)
    ∧ pool_rdm [v] "tau-a" = .ok (nan_rank_data v) := by
  refine ⟨?_, ?_, ?_, ?_, ?_, ?_, ?_, ?_, ?_, ?_⟩
  · rw [show pool_rdm [v] "euclid" = .ok (nan_mean [v]) from rfl, nan_mean_single]
  · rw [show pool_rdm [v] "cosine" = .ok (nan_mean ([v].map scaleRowCos)) from rfl]
    rw [show ([v].map scaleRowCos) = [scaleRowCos v] from rfl, nan_mean_single]
  · rw [show pool_rdm [v] "cosine_cov" = .ok (nan_mean ([v].map scaleRowCos)) from rfl]
    rw [show ([v].map scaleRowCos) = [scaleRowCos v] from rfl, nan_mean_single]
  · rw [show pool_rdm [v] "corr" =
      .ok (subConst (nan_mean ([v].map normRowCorr))
        (nanminVec (nan_mean ([v].map normRowCorr)))) from rfl]
    rw [show ([v].map normRowCorr) = [normRowCorr v] from rfl, nan_mean_single]
  · rw [show pool_rdm [v] "corr_cov" =
      .ok (subConst (nan_mean ([v].map normRowCorr))
        (nanminVec (nan_mean ([v].map normRowCorr)))) from rfl]
    rw [show ([v].map normRowCorr) = [normRowCorr v] from rfl, nan_mean_single]
  · rw [show pool_rdm [v] "spearman" = .ok (nan_mean ([v].map nan_rank_data)) from rfl]
    rw [show ([v].map nan_rank_data) = [nan_rank_data v] from rfl, nan_mean_single]
  · rw [show pool_rdm [v] "rho-a" = .ok (nan_mean ([v].map nan_rank_data)) from rfl]
    rw [show ([v].map nan_rank_data) = [nan_rank_data v] from rfl, nan_mean_single]
  · rw [show pool_rdm [v] "kendall" = .ok (nan_mean ([v].map nan_rank_data)) from rfl]
    rw [show ([v].map nan_rank_data) = [nan_rank_data v] from rfl, nan_mean_single]
  · rw [show pool_rdm [v] "tau-b" = .ok (nan_mean ([v].map nan_rank_data)) from rfl]
    rw [show ([v].map nan_rank_data) = [nan_rank_data v] from rfl, nan_mean_single]
  · rw [show pool_rdm [v] "tau-a" = .ok (nan_mean ([v].map nan_rank_data)) from rfl]
    rw [show ([v].map nan_rank_data) = [nan_rank_data v] from rfl, nan_mean_single]

/-- C10: the denominator of the bootstrap proportion is positive exactly when
some sample scores the two models differently; it is zero exactly when every
sample ties the pair; and the proportion is an actual number (not NaN) exactly
when the denominator is positive. -/
theorem pair_tests_denom_iff (evals : List (List ℚ)) (i j : Nat) :
    (0 < pairDenom evals i j ↔ ∃ s ∈ evals, evalAt s i ≠ evalAt s j)
    ∧ (pairDenom evals i j = 0 ↔ ∀ s ∈ evals, evalAt s i = evalAt s j)
    ∧ ((pairProp evals i j).isSome ↔ 0 < pairDenom evals i j) := by
  have hle : pairEqCount evals i j ≤ evals.length := List.countP_le_length _
  have hiff : pairEqCount evals i j = evals.length ↔
      ∀ s ∈ evals, evalAt s i = evalAt s j := by
    unfold pairEqCount
    rw [List.countP_eq_length]
    simp
  have h2 : pairDenom evals i j = 0 ↔ ∀ s ∈ evals, evalAt s i = evalAt s j := by
    unfold pairDenom
    constructor
    · intro h0
      exact hiff.mp (by omega)
    · intro hall
      have := hiff.mpr hall
      omega
  refine ⟨?_, h2, ?_⟩
  · constructor
    · intro hpos
      by_contra hno
      push_neg at hno
      have := h2.mpr hno
      omega
    · rintro ⟨s, hs, hne⟩
      rcases Nat.eq_zero_or_pos (pairDenom evals i j) with h0 | hpos
      · exact absurd (h2.mp h0 s hs) hne
      · exact hpos
  · unfold pairProp
    rcases Nat.eq_zero_or_pos (pairDenom evals i j) with h0 | hpos
    · simp [h0]
    · rw [if_neg (by omega)]
      simp [hpos]

/-- C4: the matrix returned by `pair_tests` is symmetric and its diagonal
entries are exactly 1, for any evaluations matrix with at least 2 models. -/
theorem pair_tests_symm_diag (evals : List (List ℚ)) (i j : Nat)
    (_hm : 2 ≤ (evals.headD []).length)
    (hi : i < (evals.headD []).length) (hj : j < (evals.headD []).length) :
    matGet (pair_tests evals) i j = matGet (pair_tests evals) j i
    ∧ matGet (pair_tests evals) i i = some 1 := by
  constructor
  · unfold matGet pair_tests
    rw [getD_range_map _ hi, getD_range_map _ hj, getD_range_map _ hj, getD_range_map _ hi]
    by_cases h : i = j
    · rw [h]
    · rw [if_neg h, if_neg (Ne.symm h), min_comm, max_comm]
  · unfold matGet pair_tests
    rw [getD_range_map _ hi, getD_range_map _ hi, if_pos rfl]

/-- Witness for C4 at a 1-sample, 2-model evaluations matrix. -/
theorem pair_tests_symm_diag_wit :
    matGet (pair_tests [[0, 1]]) 0 1 = matGet (pair_tests [[0, 1]]) 1 0
    ∧ matGet (pair_tests [[0, 1]]) 0 0 = some 1 :=
  pair_tests_symm_diag [[0, 1]] 0 1 (by decide) (by decide) (by decide)

lemma pairLtCount_le_pairDenom (evals : List (List ℚ)) (i j : Nat) :
    pairLtCount evals i j ≤ pairDenom evals i j := by
  have hsplit := List.length_eq_countP_add_countP (l := evals)
    (fun s => decide (evalAt s i = evalAt s j))
  have hmono : pairLtCount evals i j ≤
      evals.countP (fun s => decide ¬(decide (evalAt s i = evalAt s j) = true)) := by
    apply List.countP_mono_left
    intro s hs h
    have hlt : evalAt s i < evalAt s j := of_decide_eq_true h
    simp [ne_of_lt hlt]
  unfold pairDenom pairEqCount
  omega

lemma pairProp_bounds (evals : List (List ℚ)) (i j : Nat) {p : ℚ}
    (hp : pairProp evals i j = some p) : 0 ≤ p ∧ p ≤ 1 := by
  unfold pairProp at hp
  by_cases h0 : pairDenom evals i j = 0
  · rw [if_pos h0] at hp; cases hp
  · rw [if_neg h0] at hp
    obtain rfl := (Option.some.inj hp).symm
    have hdpos : (0 : ℚ) < (pairDenom evals i j : ℚ) := by
      exact_mod_cast Nat.pos_of_ne_zero h0
    constructor
    · exact div_nonneg (Nat.cast_nonneg _) (le_of_lt hdpos)
    · rw [div_le_one hdpos]
      exact_mod_cast pairLtCount_le_pairDenom evals i j

/-- C3: every off-diagonal entry of the `pair_tests` matrix is the continuity
correction `(n-1)/n * p + 1/n` of the raw two-sided proportion `p`, and every
numeric entry of the matrix (diagonal included) is at least `1/n` and in
particular never 0. -/
theorem pair_tests_continuity (evals : List (List ℚ)) (i j : Nat)
    (hn : 1 ≤ evals.length)
    (hi : i < (evals.headD []).length) (hj : j < (evals.headD []).length) :
    (i ≠ j → matGet (pair_tests evals) i j =
      ((pairProp evals (min i j) (max i j)).map twoSidedOf).map (bootAdjust evals.length))
    ∧ (∀ q : ℚ, matGet (pair_tests evals) i j = some q →
        1 / (evals.length : ℚ) ≤ q ∧ q ≠ 0) := by
  have hentry : matGet (pair_tests evals) i j =
      if i = j then some 1
      else ((pairProp evals (min i j) (max i j)).map twoSidedOf).map
        (bootAdjust evals.length) := by
    unfold matGet pair_tests
    rw [getD_range_map _ hi, getD_range_map _ hj]
  have hn1 : (1 : ℚ) ≤ (evals.length : ℚ) := by exact_mod_cast hn
  have hnq : (0 : ℚ) < (evals.length : ℚ) := by linarith
  refine ⟨fun hne => by rw [hentry, if_neg hne], ?_⟩
  intro q hq
  rw [hentry] at hq
  by_cases hij : i = j
  · rw [if_pos hij] at hq
    obtain rfl := (Option.some.inj hq).symm
    constructor
    · rw [div_le_one hnq]; exact hn1
    · norm_num
  · rw [if_neg hij] at hq
    rcases hprop : pairProp evals (min i j) (max i j) with _ | p
    · rw [hprop] at hq; cases hq
    · rw [hprop] at hq
      simp only [Option.map_some'] at hq
      obtain rfl := (Option.some.inj hq).symm
      obtain ⟨hp0, hp1⟩ := pairProp_bounds _ _ _ hprop
      have ht0 : 0 ≤ twoSidedOf p := by
        unfold twoSidedOf
        have hmin : 0 ≤ min p (1 - p) := le_min hp0 (by linarith)
        linarith
      have hge : 1 / (evals.length : ℚ) ≤ bootAdjust evals.length (twoSidedOf p) := by
        unfold bootAdjust
        have hfac : 0 ≤ ((evals.length : ℚ) - 1) / (evals.length : ℚ) :=
          div_nonneg (by linarith) (le_of_lt hnq)
        have hprod : 0 ≤ ((evals.length : ℚ) - 1) / (evals.length : ℚ) * twoSidedOf p :=
          mul_nonneg hfac ht0
        linarith
      refine ⟨hge, ne_of_gt (lt_of_lt_of_le (by positivity) hge)⟩

/-- Witness for C3 at a 2-sample, 2-model evaluations matrix, where the
off-diagonal entry evaluates to `some 1`. -/
theorem pair_tests_continuity_wit :
    1 / (([[0, 1], [1, 0]] : List (List ℚ)).length : ℚ) ≤ 1 ∧ (1 : ℚ) ≠ 0 :=
  (pair_tests_continuity [[0, 1], [1, 0]] 0 1 (by decide) (by decide) (by decide)).2 1
    (by norm_num [matGet, pair_tests, List.range_succ, pairProp, pairDenom, pairEqCount,
      pairLtCount, evalAt, twoSidedOf, bootAdjust, List.countP_cons, List.countP_nil])

lemma meanEvals_length (evals : List (List ℚ)) :
    (meanEvals evals).length = (evals.headD []).length := by
  simp [meanEvals]

lemma t_test_nc_entry (cdf sqrtf : ℚ → ℚ) (evals : List (List ℚ)) (V : VarEst)
    (noise_ceil : ℚ) (ncv : Option NCVar) (i : Nat)
    (hi : i < (evals.headD []).length) :
    exGetD (t_test_nc cdf sqrtf evals (some V) noise_ceil ncv) i =
      2 * (1 - cdf |((meanEvals evals).getD i 0 - noise_ceil) /
        sqrtf (ncEffVar V ncv i)|) := by
  have hlen : i < (meanEvals evals).length := by rw [meanEvals_length]; exact hi
  unfold exGetD
  rw [show t_test_nc cdf sqrtf evals (some V) noise_ceil ncv =
    Except.ok ((List.range (meanEvals evals).length).map (fun k =>
      2 * (1 - cdf |((meanEvals evals).getD k 0 - noise_ceil) /
        sqrtf (ncEffVar V ncv k)|))) from rfl]
  rw [show (Except.ok ((List.range (meanEvals evals).length).map (fun k =>
      2 * (1 - cdf |((meanEvals evals).getD k 0 - noise_ceil) /
        sqrtf (ncEffVar V ncv k)|))) : Except String (List ℚ)).toOption.getD []
    = (List.range (meanEvals evals).length).map (fun k =>
      2 * (1 - cdf |((meanEvals evals).getD k 0 - noise_ceil) /
        sqrtf (ncEffVar V ncv k)|)) from rfl]
  rw [getD_range_map _ hlen]

/-- C5: the effective variance used by `t_test_nc` for model `i` is the
model's own variance when no noise-ceiling variance is supplied; model
variance minus twice the ceiling covariance at index `i` plus the ceiling
variance at the last index for a multi-element array; and model variance plus
the scalar ceiling variance for a scalar. -/
theorem t_test_nc_var_modes (cdf sqrtf : ℚ → ℚ) (evals : List (List ℚ)) (V : VarEst)
    (noise_ceil : ℚ) (i : Nat) (hi : i < (evals.headD []).length) :
    (exGetD (t_test_nc cdf sqrtf evals (some V) noise_ceil none) i =
      2 * (1 - cdf |((meanEvals evals).getD i 0 - noise_ceil) / sqrtf (varDiag V i)|))
    ∧ (∀ l : List ℚ, 1 < l.length →
      exGetD (t_test_nc cdf sqrtf evals (some V) noise_ceil (some (NCVar.arr l))) i =
        2 * (1 - cdf |((meanEvals evals).getD i 0 - noise_ceil) /
          sqrtf (varDiag V i - 2 * l.getD i 0 + l.getLastD 0)|))
    ∧ (∀ c : ℚ,
      exGetD (t_test_nc cdf sqrtf evals (some V) noise_ceil (some (NCVar.scalar c))) i =
        2 * (1 - cdf |((meanEvals evals).getD i 0 - noise_ceil) /
          sqrtf (varDiag V i + c)|)) := by
  refine ⟨?_, ?_, ?_⟩
  · rw [t_test_nc_entry cdf sqrtf evals V noise_ceil none i hi]
    rfl
  · intro l hl
    rw [t_test_nc_entry cdf sqrtf evals V noise_ceil (some (NCVar.arr l)) i hi]
    have : ncEffVar V (some (NCVar.arr l)) i =
        varDiag V i - 2 * l.getD i 0 + l.getLastD 0 := by
      unfold ncEffVar ncvReduce
      simp only [Option.map_some']
      rw [if_pos hl]
    rw [this]
  · intro c
    rw [t_test_nc_entry cdf sqrtf evals V noise_ceil (some (NCVar.scalar c)) i hi]
    have : ncEffVar V (some (NCVar.scalar c)) i = varDiag V i + c := by
      unfold ncEffVar ncvReduce
      simp
    rw [this]

/-- Witness for C5 at a concrete one-model instance (abstract routines
instantiated by constant functions). -/
theorem t_test_nc_var_modes_wit :
    exGetD (t_test_nc (fun _ => 0) (fun _ => 0) [[1]] (some (VarEst.vec [1])) 0 none) 0 =
      2 * (1 - 0) :=
  (t_test_nc_var_modes (fun _ => 0) (fun _ => 0) [[1]] (VarEst.vec [1]) 0 0 (by decide)).1

/-- C6: `t_test_0` returns the one-sided upper-tail p-value `1 - cdf(t)` with
no absolute value, while `t_tests` and `t_test_nc` return two-sided p-values
`2 * (1 - cdf(abs t))`. -/
theorem t_test_sidedness (cdf sqrtf : ℚ → ℚ) (evals : List (List ℚ)) (V : VarEst)
    (noise_ceil : ℚ) (ncv : Option NCVar) (i j : Nat)
    (hi : i < (evals.headD []).length) (hj : j < (evals.headD []).length) :
    (exGetD (t_test_0 cdf sqrtf evals (some V)) i =
      1 - cdf ((meanEvals evals).getD i 0 / sqrtf (varDiag V i)))
    ∧ (i ≠ j → exGet2 (t_tests cdf sqrtf evals (some V)) i j =
      2 * (1 - cdf |tPairStat sqrtf (meanEvals evals) V (min i j) (max i j)|))
    ∧ (exGetD (t_test_nc cdf sqrtf evals (some V) noise_ceil ncv) i =
      2 * (1 - cdf |((meanEvals evals).getD i 0 - noise_ceil) /
        sqrtf (ncEffVar V ncv i)|)) := by
  have hlen : i < (meanEvals evals).length := by rw [meanEvals_length]; exact hi
  refine ⟨?_, ?_, t_test_nc_entry cdf sqrtf evals V noise_ceil ncv i hi⟩
  · unfold exGetD
    rw [show t_test_0 cdf sqrtf evals (some V) =
      Except.ok ((List.range (meanEvals evals).length).map (fun k =>
        1 - cdf ((meanEvals evals).getD k 0 / sqrtf (varDiag V k)))) from rfl]
    rw [show (Except.ok ((List.range (meanEvals evals).length).map (fun k =>
        1 - cdf ((meanEvals evals).getD k 0 / sqrtf (varDiag V k)))) :
        Except String (List ℚ)).toOption.getD []
      = (List.range (meanEvals evals).length).map (fun k =>
        1 - cdf ((meanEvals evals).getD k 0 / sqrtf (varDiag V k))) from rfl]
    rw [getD_range_map _ hlen]
  · intro hne
    unfold exGet2
    rw [show t_tests cdf sqrtf evals (some V) =
      Except.ok ((pairsToMatrix (evals.headD []).length
        (tPairStat sqrtf (meanEvals evals) V)).map
          (fun row => row.map (fun t => 2 * (1 - cdf |t|)))) from rfl]
    rw [show (Except.ok ((pairsToMatrix (evals.headD []).length
        (tPairStat sqrtf (meanEvals evals) V)).map
          (fun row => row.map (fun t => 2 * (1 - cdf |t|)))) :
        Except String (List (List ℚ))).toOption.getD []
      = (pairsToMatrix (evals.headD []).length
          (tPairStat sqrtf (meanEvals evals) V)).map
            (fun row => row.map (fun t => 2 * (1 - cdf |t|))) from rfl]
    unfold pairsToMatrix
    rw [List.map_map]
    rw [getD_range_map _ hi]
    simp only [Function.comp_apply, List.map_map]
    rw [getD_range_map _ hj]
    simp only [Function.comp_apply]
    rw [if_neg hne]

/-- Witness for C6 at a concrete two-model instance (abstract routines
instantiated by constant functions). -/
theorem t_test_sidedness_wit :
    exGetD (t_test_0 (fun _ => 0) (fun _ => 0) [[1, 2]] (some (VarEst.vec [1, 1]))) 0 =
      1 - 0 :=
  (t_test_sidedness (fun _ => 0) (fun _ => 0) [[1, 2]] (VarEst.vec [1, 1]) 0 none 0 1
    (by decide) (by decide)).1

/-- C7 counterexample: (a) a single model together with a parameter list (no
matching model list) is accepted unvalidated, where the claim requires a
validation error; (b) a model list together with a non-list theta fails,
a case the claim's failure conditions do not cover. -/
theorem input_check_model_cex :
    (input_check_model (α := Nat) (φ := Nat) (ModelArg.single ⟨0⟩)
        (some (ThetaVal.tlist [0, 0])) none 1)
      = Except.ok (EvalBuf.one 1, ThetaOut.passthruT (some (ThetaVal.tlist [0, 0])),
          FitOut.passthruF none)
    ∧ (input_check_model (α := Nat) (φ := Nat) (ModelArg.listOf [⟨0⟩])
        (some (ThetaVal.tsingle 0)) none 1).isOk = false :=
  ⟨rfl, rfl⟩

/-- C7 amended: `input_check_model` fails exactly when the model argument is
neither a single model nor a list of models; or the model argument is a list
and a theta is supplied that is either not a list or a list whose length
differs from the model list; or the model argument is a list and a
fitting-function list of different length is supplied.  With a single model,
parameter and fitter arguments are passed through without validation. -/
theorem input_check_model_error_iff {α φ : Type} (model : ModelArg φ)
    (theta : Option (ThetaVal α)) (fitter : Option (FitVal φ)) (N : Nat) :
    (input_check_model model theta fitter N).isOk = false ↔
      (model = ModelArg.invalid
       ∨ ∃ ms, model = ModelArg.listOf ms ∧
          ((∃ a, theta = some (ThetaVal.tsingle a))
           ∨ (∃ l, theta = some (ThetaVal.tlist l) ∧ l.length ≠ ms.length)
           ∨ (∃ fl, fitter = some (FitVal.flist fl) ∧ fl.length ≠ ms.length))) := by
  cases model with
  | single m => simp [input_check_model, Except.isOk, Except.toBool]
  | invalid => simp [input_check_model, Except.isOk, Except.toBool]
  | listOf ms =>
    rcases theta with _ | tv
    · rcases fitter with _ | fv
      · simp [input_check_model, Except.isOk, Except.toBool]
      · rcases fv with ⟨fl⟩ | ⟨f⟩
        · by_cases hf : fl.length = ms.length
          · simp [input_check_model, Except.isOk, Except.toBool, hf]
          · simp [input_check_model, Except.isOk, Except.toBool, hf]
        · simp [input_check_model, Except.isOk, Except.toBool]
    · rcases tv with ⟨l⟩ | ⟨a⟩
      · by_cases ht : l.length = ms.length
        · rcases fitter with _ | fv
          · simp [input_check_model, Except.isOk, Except.toBool, ht]
          · rcases fv with ⟨fl⟩ | ⟨f⟩
            · by_cases hf : fl.length = ms.length
              · simp [input_check_model, Except.isOk, Except.toBool, ht, hf]
              · simp [input_check_model, Except.isOk, Except.toBool, ht, hf]
            · simp [input_check_model, Except.isOk, Except.toBool, ht]
        · simp [input_check_model, Except.isOk, Except.toBool, ht]
      · simp [input_check_model, Except.isOk, Except.toBool]
